import Mathlib

/-!
# Verification of the EnvolveAI admission proxy (`src/api-proxy/cloudflare-worker.js`)

A shallow embedding of the Cloudflare-worker request proxy: origin
allow-listing, fixed-window per-IP rate limiting, input validation, message
truncation, upstream error sanitization, and response/CORS-header
construction.  Every definition mirrors the corresponding JavaScript source;
times are natural-number milliseconds, the in-memory `Map` is an association
list with `Map.set` semantics (replace in place, append when absent), and
JSON values are an inductive type with JavaScript truthiness made explicit.
-/

namespace EnvolveAI

/-- JSON values, as produced by `request.json()`.  Numbers are rationals
(enough for the worker's generation parameters 0.7, 500, 0.95, 40). -/
inductive JVal where
  | jnull : JVal
  | jbool : Bool → JVal
  | jnum : Rat → JVal
  | jstr : String → JVal
  | jarr : List JVal → JVal
  | jobj : List (String × JVal) → JVal

open JVal

/-- Field access `obj.field` on a JSON value other than `null`: first
binding wins; `none` models JavaScript `undefined` (absent field, or a
non-object receiver such as a number or string, whose property access yields
`undefined`).  Property access on the JSON literal `null` is *not* covered
here: in JavaScript it throws a TypeError, and the one place the worker
accesses a field of the raw parsed body (`body.message`, source line 52)
models that throw explicitly in `handleFetch` before this function is
consulted. -/
def getField : JVal → String → Option JVal
  | jobj fields, k => go fields k
  | _, _ => none
where go : List (String × JVal) → String → Option JVal
  | [], _ => none
  | (k', v) :: t, k => if k' = k then some v else go t k

/-- JavaScript truthiness of a possibly-undefined value: `undefined`, `null`,
`false`, `0` and `""` are falsy, everything else truthy. -/
def jsTruthy : Option JVal → Bool
  | none => false
  | some jnull => false
  | some (jbool b) => b
  | some (jnum n) => n ≠ 0
  | some (jstr s) => s ≠ ""
  | some (jarr _) => true
  | some (jobj _) => true

/-- `typeof v === 'string'` on a possibly-undefined value. -/
def isStringVal : Option JVal → Bool
  | some (jstr _) => true
  | _ => false

/-! ## Configuration constants (source lines 8–16) -/

/-- `ALLOWED_ORIGINS` (source lines 8–13). -/
def ALLOWED_ORIGINS : List String :=
  ["https://envolveai.bot",
   "https://www.envolveai.bot",
   "http://localhost:5500",
   "http://127.0.0.1:5500"]

/-- `RATE_LIMIT_REQUESTS = 30` (source line 15). -/
def RATE_LIMIT_REQUESTS : Nat := 30

/-- `RATE_LIMIT_WINDOW = 60 * 1000` ms (source line 16). -/
def RATE_LIMIT_WINDOW : Nat := 60 * 1000

/-! ## The rate-limit cache (source lines 19, 113–152) -/

/-- One entry of `rateLimitCache`: `{ count, resetAt }`. -/
structure RateRecord where
  count : Nat
  resetAt : Nat
deriving DecidableEq, Repr

/-- The in-memory `rateLimitCache` `Map`, in insertion order. -/
abbrev RateCache := List (String × RateRecord)

/-- `Map.get`: the value stored at a key (keys are unique in a `Map`; on an
association list the first binding wins). -/
def getAssoc (k : String) : RateCache → Option RateRecord
  | [] => none
  | (k', v) :: t => if k' = k then some v else getAssoc k t

/-- `Map.set`: replace the binding at `k` in place, or append it when the key
is absent (JavaScript `Map` insertion-order semantics). -/
def setAssoc (k : String) (v : RateRecord) : RateCache → RateCache
  | [] => [(k, v)]
  | (k', v') :: t => if k' = k then (k, v) :: t else (k', v') :: setAssoc k v t

/-- `cleanupRateLimit` (source lines 145–152): delete every record whose
`resetAt` has passed (`now > record.resetAt`). -/
def cleanupRateLimit (now : Nat) (cache : RateCache) : RateCache :=
  cache.filter (fun e => !(now > e.2.resetAt))

/-- The cache key `"rate_" + ip` (source line 115). -/
def rateKey (ip : String) : String := "rate_" ++ ip

/-- `checkRateLimit` (source lines 113–140).  Returns the admission decision
together with the updated cache; the JavaScript mutates the module-level
`Map`, here the state is passed explicitly.  Note that on the rejection path
the incremented record has already been written back (`record.count++`
mutates the stored record before the budget test). -/
def checkRateLimit (ip : String) (now : Nat) (cache : RateCache) :
    Bool × RateCache :=
  let key := rateKey ip
  let cache := cleanupRateLimit now cache
  match getAssoc key cache with
  | none =>
      (true, setAssoc key { count := 1, resetAt := now + RATE_LIMIT_WINDOW } cache)
  | some record =>
      if now > record.resetAt then
        (true, setAssoc key { count := 1, resetAt := now + RATE_LIMIT_WINDOW } cache)
      else
        let record := { record with count := record.count + 1 }
        let cache := setAssoc key record cache
        if record.count > RATE_LIMIT_REQUESTS then
          (false, cache)
        else
          (true, cache)

/-! ## Origin validation (source lines 34–37) -/

/-- `pat` is a prefix of `l` (character lists). -/
def startsWithL : List Char → List Char → Bool
  | [], _ => true
  | _ :: _, [] => false
  | p :: ps, c :: cs => p == c && startsWithL ps cs

/-- `pat` occurs as a contiguous sublist of `l`. -/
def hasSubL (pat : List Char) : List Char → Bool
  | [] => startsWithL pat []
  | c :: cs => startsWithL pat (c :: cs) || hasSubL pat cs

/-- JavaScript `s.includes(pat)`. -/
def strHasSub (s pat : String) : Bool := hasSubL pat.data s.data

/-- The origin gate of `fetch` (source line 35): the request proceeds iff
`ALLOWED_ORIGINS.includes(origin) || origin?.includes('127.0.0.1')`; a
missing `Origin` header is `null`, which is in no allow-list and for which
the optional-chained `includes` short-circuits to `undefined` (falsy). -/
def originAllowed : Option String → Bool
  | none => false
  | some o => ALLOWED_ORIGINS.contains o || strHasSub o "127.0.0.1"

/-! ## Requests, responses and the upstream call -/

/-- The parts of an inbound `Request` the worker reads: the HTTP method, the
`Origin` header, the `CF-Connecting-IP` header, and the result of
`request.json()` (`.error msg` models a parse failure throwing). -/
structure WRequest where
  method : String
  origin : Option String
  clientIP : Option String
  body : Except String JVal

/-- An outbound `Response`: status, JSON body (`none` for the empty preflight
body) and headers in construction order. -/
structure WResponse where
  status : Nat
  body : Option JVal
  headers : List (String × String)

/-- `headers.get(k)` on a response. -/
def getHeader (r : WResponse) (k : String) : Option String := go r.headers
where go : List (String × String) → Option String
  | [] => none
  | (k', v) :: t => if k' = k then some v else go t

/-- `handleCORS` (source lines 157–167): the `OPTIONS` preflight response. -/
def handleCORS : WResponse :=
  { status := 204
    body := none
    headers :=
      [("Access-Control-Allow-Origin", "*"),
       ("Access-Control-Allow-Methods", "POST, OPTIONS"),
       ("Access-Control-Allow-Headers", "Content-Type"),
       ("Access-Control-Max-Age", "86400")] }

/-- `jsonResponse(data, status, origin)` (source lines 172–185).  The
JavaScript default parameter `origin = '*'` is passed explicitly by the
call sites below. -/
def jsonResponse (data : JVal) (status : Nat) (origin : String) : WResponse :=
  { status := status
    body := some data
    headers :=
      [("Content-Type", "application/json"),
       ("Access-Control-Allow-Origin", origin),
       ("Access-Control-Allow-Methods", "POST, OPTIONS"),
       ("Access-Control-Allow-Headers", "Content-Type"),
       ("X-Content-Type-Options", "nosniff"),
       ("X-Frame-Options", "DENY"),
       ("X-XSS-Protection", "1; mode=block")] }

/-- What the worker observes of the upstream Gemini `Response`: its status,
its raw body text (read by `response.text()` on the error path) and the
result of `response.json()`. -/
structure UpstreamResponse where
  status : Nat
  bodyText : String
  bodyJson : Except String JVal

/-- `Response.ok`: status in the range 200–299. -/
def upstreamOk (u : UpstreamResponse) : Bool :=
  decide (200 ≤ u.status ∧ u.status ≤ 299)

/-- The rate-limit key source: `request.headers.get('CF-Connecting-IP') ||
'unknown'` (source line 40; `null` and the empty string are both falsy). -/
def clientIPOf (req : WRequest) : String :=
  match req.clientIP with
  | none => "unknown"
  | some s => if s = "" then "unknown" else s

/-! ## Upstream request construction (source lines 57–70) -/

/-- `body.message.substring(0, 1000)` (source line 57). -/
def sanitizeMessage (m : String) : String := String.mk (m.data.take 1000)

/-- The `message` field's string payload (only read after validation has
established that the field is a string). -/
def messageOf (b : JVal) : String :=
  match getField b "message" with
  | some (jstr s) => s
  | _ => ""

/-- The single-turn `contents` structure built from the sanitized message
(source lines 61–63). -/
def defaultContents (text : String) : JVal :=
  jarr [jobj [("parts", jarr [jobj [("text", jstr text)]])]]

/-- The fixed `generationConfig` (source lines 64–69). -/
def generationConfig : JVal :=
  jobj [("temperature", jnum (7 / 10)),
        ("maxOutputTokens", jnum 500),
        ("topP", jnum (19 / 20)),
        ("topK", jnum 40)]

/-- The upstream request payload (source lines 60–70):
`body.contents || [{ parts: [{ text: sanitizedMessage }] }]` plus the fixed
generation parameters. -/
def buildGeminiRequest (b : JVal) : JVal :=
  let sanitized := sanitizeMessage (messageOf b)
  let contents :=
    match getField b "contents" with
    | some c => if jsTruthy (some c) then c else defaultContents sanitized
    | none => defaultContents sanitized
  jobj [("contents", contents), ("generationConfig", generationConfig)]

/-- The validation gate `!body.message || typeof body.message !== 'string'`
(source line 52): the request proceeds iff `message` is truthy and a
string.  Only evaluated on a non-`null` body (see `isNullJ`). -/
def validMessage (b : JVal) : Bool :=
  jsTruthy (getField b "message") && isStringVal (getField b "message")

/-- The parsed body is the JSON literal `null`.  Reading `body.message` on
it (source line 52) throws `TypeError: Cannot read properties of null` in
JavaScript; the worker's catch-all (source lines 100–106) turns that throw
into a 500 response. -/
def isNullJ : JVal → Bool
  | jnull => true
  | _ => false

/-- `{ error: msg }`. -/
def errBody (msg : String) : JVal := jobj [("error", jstr msg)]

/-! ## The `fetch` handler (source lines 22–107) -/

/-- The worker's `fetch` handler.  `callGemini` stands for the outbound
`fetch` to the Gemini endpoint: it receives the request payload and returns
either a transport error (`.error`, modelling a thrown exception, caught by
the handler's `catch`) or the upstream response.  The rate-limit cache is
threaded explicitly; `now` is `Date.now()`.  A parsed body that is the JSON
literal `null` makes the validation access `body.message` (source line 52)
throw a TypeError inside the `try`, so the catch-all answers 500 — modelled
by the `isNullJ` gate before validation. -/
def handleFetch (req : WRequest) (callGemini : JVal → Except String UpstreamResponse)
    (now : Nat) (cache : RateCache) : WResponse × RateCache :=
  if req.method = "OPTIONS" then (handleCORS, cache)
  else if req.method ≠ "POST" then
    (jsonResponse (errBody "Método não permitido") 405 "*", cache)
  else if !(originAllowed req.origin) then
    (jsonResponse (errBody "Origem não autorizada") 403 "*", cache)
  else
    let res := checkRateLimit (clientIPOf req) now cache
    let cache := res.2
    if !res.1 then
      (jsonResponse
        (errBody "Rate limit excedido. Tente novamente em alguns segundos.")
        429 "*", cache)
    else
      match req.body with
      | .error e =>
          (jsonResponse
            (jobj [("error", jstr "Erro interno do servidor"), ("message", jstr e)])
            500 "*", cache)
      | .ok body =>
          if isNullJ body then
            (jsonResponse
              (jobj [("error", jstr "Erro interno do servidor"),
                     ("message", jstr "Cannot read properties of null")])
              500 "*", cache)
          else if !(validMessage body) then
            (jsonResponse (errBody "Mensagem inválida") 400 "*", cache)
          else
            match callGemini (buildGeminiRequest body) with
            | .error e =>
                (jsonResponse
                  (jobj [("error", jstr "Erro interno do servidor"),
                         ("message", jstr e)])
                  500 "*", cache)
            | .ok u =>
                if !(upstreamOk u) then
                  (jsonResponse
                    (jobj [("error", jstr "Erro ao processar com IA"),
                           ("details", jstr (if u.status = 429
                             then "Rate limit da API" else "Erro interno"))])
                    u.status "*", cache)
                else
                  match u.bodyJson with
                  | .error e =>
                      (jsonResponse
                        (jobj [("error", jstr "Erro interno do servidor"),
                               ("message", jstr e)])
                        500 "*", cache)
                  | .ok data =>
                      (jsonResponse data 200
                        (match req.origin with | some o => o | none => "*"), cache)

/-! ## Association-list lemmas for the rate-limit cache -/

theorem getAssoc_setAssoc_self (k : String) (v : RateRecord) (l : RateCache) :
    getAssoc k (setAssoc k v l) = some v := by
  induction l with
  | nil => simp [getAssoc, setAssoc]
  | cons e t ih =>
      obtain ⟨k', v'⟩ := e
      by_cases h : k' = k
      · simp [setAssoc, h, getAssoc]
      · simp [setAssoc, h, getAssoc, ih]

theorem getAssoc_setAssoc_ne (k k' : String) (v : RateRecord) (l : RateCache)
    (h : k' ≠ k) : getAssoc k (setAssoc k' v l) = getAssoc k l := by
  induction l with
  | nil => simp [getAssoc, setAssoc, h]
  | cons e t ih =>
      obtain ⟨k'', v''⟩ := e
      by_cases h' : k'' = k'
      · subst h'
        simp [setAssoc, getAssoc, h]
      · simp only [setAssoc, if_neg h']
        by_cases h'' : k'' = k
        · simp [getAssoc, h'']
        · simp [getAssoc, h'', ih]

theorem mem_of_getAssoc (k : String) (r : RateRecord) (l : RateCache)
    (h : getAssoc k l = some r) : (k, r) ∈ l := by
  induction l with
  | nil => simp [getAssoc] at h
  | cons e t ih =>
      obtain ⟨k', v'⟩ := e
      by_cases h' : k' = k
      · subst h'
        simp [getAssoc] at h
        simp [h]
      · simp [getAssoc, h'] at h
        exact List.mem_cons_of_mem _ (ih h)

theorem getAssoc_setAssoc_cases (k k' : String) (v r : RateRecord) (l : RateCache)
    (h : getAssoc k (setAssoc k' v l) = some r) :
    (k = k' ∧ r = v) ∨ getAssoc k l = some r := by
  by_cases hk : k = k'
  · subst hk
    rw [getAssoc_setAssoc_self] at h
    exact Or.inl ⟨rfl, (Option.some.injEq _ _ ▸ h).symm⟩
  · rw [getAssoc_setAssoc_ne _ _ _ _ (fun he => hk he.symm)] at h
    exact Or.inr h

theorem getAssoc_filter (p : String × RateRecord → Bool) (k : String)
    (r : RateRecord) (l : RateCache) (h : getAssoc k l = some r)
    (hp : p (k, r) = true) : getAssoc k (l.filter p) = some r := by
  induction l with
  | nil => simp [getAssoc] at h
  | cons e t ih =>
      obtain ⟨k', v'⟩ := e
      by_cases h' : k' = k
      · subst h'
        simp [getAssoc] at h
        subst h
        simp [List.filter, hp, getAssoc]
      · simp [getAssoc, h'] at h
        cases hpe : p (k', v') with
        | true => simp [List.filter, hpe, getAssoc, h', ih h]
        | false => simp [List.filter, hpe, ih h]

theorem getAssoc_none_of_not_mem (k : String) (l : RateCache)
    (h : k ∉ l.map Prod.fst) : getAssoc k l = none := by
  induction l with
  | nil => simp [getAssoc]
  | cons e t ih =>
      obtain ⟨k', v'⟩ := e
      simp only [List.map_cons, List.mem_cons] at h
      push_neg at h
      have hne : k' ≠ k := fun he => h.1 he.symm
      simp [getAssoc, hne, ih h.2]

theorem getAssoc_filter_none (p : String × RateRecord → Bool) (k : String)
    (l : RateCache) (h : getAssoc k l = none) :
    getAssoc k (l.filter p) = none := by
  induction l with
  | nil => simp [getAssoc]
  | cons e t ih =>
      obtain ⟨k', v'⟩ := e
      by_cases h' : k' = k
      · simp [getAssoc, h'] at h
      · simp only [getAssoc, if_neg h'] at h
        cases hpe : p (k', v') with
        | true => simp [List.filter, hpe, getAssoc, h', ih h]
        | false => simp [List.filter, hpe, ih h]

theorem le_resetAt_of_getAssoc_cleanup (now : Nat) (k : String) (r : RateRecord)
    (l : RateCache) (h : getAssoc k (cleanupRateLimit now l) = some r) :
    now ≤ r.resetAt := by
  have hm := mem_of_getAssoc _ _ _ h
  rw [cleanupRateLimit, List.mem_filter] at hm
  simpa using hm.2

theorem getAssoc_cleanup_of_live (now : Nat) (k : String) (r : RateRecord)
    (l : RateCache) (h : getAssoc k l = some r) (hlive : now ≤ r.resetAt) :
    getAssoc k (cleanupRateLimit now l) = some r := by
  apply getAssoc_filter _ _ _ _ h
  simpa using hlive

theorem getAssoc_cleanup_of_expired (now : Nat) (k : String) (r : RateRecord)
    (l : RateCache) (hnd : (l.map Prod.fst).Nodup) (h : getAssoc k l = some r)
    (hexp : r.resetAt < now) : getAssoc k (cleanupRateLimit now l) = none := by
  induction l with
  | nil => simp [getAssoc] at h
  | cons e t ih =>
      obtain ⟨k', v'⟩ := e
      simp only [List.map_cons, List.nodup_cons] at hnd
      by_cases h' : k' = k
      · subst h'
        have hvr : v' = r := by simpa [getAssoc] using h
        have hnone : getAssoc k' t = none :=
          getAssoc_none_of_not_mem _ _ hnd.1
        simp only [cleanupRateLimit, List.filter]
        have hkeep : (!decide (now > v'.resetAt)) = false := by
          simpa [hvr] using hexp
        rw [hkeep]
        exact getAssoc_filter_none _ _ _ hnone
      · simp only [getAssoc, if_neg h'] at h
        have htail := ih hnd.2 h
        simp only [cleanupRateLimit, List.filter] at htail ⊢
        cases hpe : (!decide (now > v'.resetAt)) with
        | true => simp [getAssoc, h', htail]
        | false => exact htail

/-! ## `checkRateLimit` branch lemmas -/

theorem checkRateLimit_of_none (ip : String) (now : Nat) (cache : RateCache)
    (h : getAssoc (rateKey ip) (cleanupRateLimit now cache) = none) :
    checkRateLimit ip now cache =
      (true, setAssoc (rateKey ip) { count := 1, resetAt := now + RATE_LIMIT_WINDOW }
        (cleanupRateLimit now cache)) := by
  simp only [checkRateLimit]
  rw [h]

theorem checkRateLimit_of_expired (ip : String) (now : Nat) (cache : RateCache)
    (rec : RateRecord)
    (h : getAssoc (rateKey ip) (cleanupRateLimit now cache) = some rec)
    (hexp : rec.resetAt < now) :
    checkRateLimit ip now cache =
      (true, setAssoc (rateKey ip) { count := 1, resetAt := now + RATE_LIMIT_WINDOW }
        (cleanupRateLimit now cache)) := by
  simp only [checkRateLimit]
  rw [h]
  simp [hexp]

theorem checkRateLimit_of_live_reject (ip : String) (now : Nat) (cache : RateCache)
    (rec : RateRecord)
    (h : getAssoc (rateKey ip) (cleanupRateLimit now cache) = some rec)
    (hlive : now ≤ rec.resetAt) (hover : RATE_LIMIT_REQUESTS < rec.count + 1) :
    checkRateLimit ip now cache =
      (false, setAssoc (rateKey ip) { count := rec.count + 1, resetAt := rec.resetAt }
        (cleanupRateLimit now cache)) := by
  simp only [checkRateLimit]
  rw [h]
  simp [Nat.not_lt.mpr hlive, hover]

theorem checkRateLimit_of_live_below (ip : String) (now : Nat) (cache : RateCache)
    (rec : RateRecord)
    (h : getAssoc (rateKey ip) (cleanupRateLimit now cache) = some rec)
    (hlive : now ≤ rec.resetAt) (hok : rec.count + 1 ≤ RATE_LIMIT_REQUESTS) :
    checkRateLimit ip now cache =
      (true, setAssoc (rateKey ip) { count := rec.count + 1, resetAt := rec.resetAt }
        (cleanupRateLimit now cache)) := by
  simp only [checkRateLimit]
  rw [h]
  simp [Nat.not_lt.mpr hlive, Nat.not_lt.mpr hok]

/-- Any record looked up in the cache a rate-limit check leaves behind is
still within its window: `resetAt ≥ now`. -/
theorem checkRateLimit_post_live (ip : String) (now : Nat) (cache : RateCache)
    (k : String) (r : RateRecord)
    (h : getAssoc k (checkRateLimit ip now cache).2 = some r) :
    now ≤ r.resetAt := by
  rcases hg : getAssoc (rateKey ip) (cleanupRateLimit now cache) with _ | rec
  · rw [checkRateLimit_of_none _ _ _ hg] at h
    rcases getAssoc_setAssoc_cases _ _ _ _ _ h with ⟨_, hr⟩ | h'
    · rw [hr]
      exact Nat.le_add_right _ _
    · exact le_resetAt_of_getAssoc_cleanup _ _ _ _ h'
  · have hlive := le_resetAt_of_getAssoc_cleanup _ _ _ _ hg
    by_cases hc : rec.count + 1 ≤ RATE_LIMIT_REQUESTS
    · rw [checkRateLimit_of_live_below _ _ _ _ hg hlive hc] at h
      rcases getAssoc_setAssoc_cases _ _ _ _ _ h with ⟨_, hr⟩ | h'
      · rw [hr]
        exact hlive
      · exact le_resetAt_of_getAssoc_cleanup _ _ _ _ h'
    · push_neg at hc
      rw [checkRateLimit_of_live_reject _ _ _ _ hg hlive hc] at h
      rcases getAssoc_setAssoc_cases _ _ _ _ _ h with ⟨_, hr⟩ | h'
      · rw [hr]
        exact hlive
      · exact le_resetAt_of_getAssoc_cleanup _ _ _ _ h'

/-- A rate-limit check for one client leaves every other client's live
record exactly in place. -/
theorem checkRateLimit_frame (ip : String) (now : Nat) (cache : RateCache)
    (k : String) (r : RateRecord) (hk : k ≠ rateKey ip)
    (h : getAssoc k cache = some r) (hlive : now ≤ r.resetAt) :
    getAssoc k (checkRateLimit ip now cache).2 = some r := by
  have hcl := getAssoc_cleanup_of_live now _ _ _ h hlive
  have hne : rateKey ip ≠ k := fun he => hk he.symm
  rcases hg : getAssoc (rateKey ip) (cleanupRateLimit now cache) with _ | rec
  · rw [checkRateLimit_of_none _ _ _ hg, getAssoc_setAssoc_ne _ _ _ _ hne]
    exact hcl
  · have hlive' := le_resetAt_of_getAssoc_cleanup _ _ _ _ hg
    by_cases hc : rec.count + 1 ≤ RATE_LIMIT_REQUESTS
    · rw [checkRateLimit_of_live_below _ _ _ _ hg hlive' hc,
        getAssoc_setAssoc_ne _ _ _ _ hne]
      exact hcl
    · push_neg at hc
      rw [checkRateLimit_of_live_reject _ _ _ _ hg hlive' hc,
        getAssoc_setAssoc_ne _ _ _ _ hne]
      exact hcl

/-! ## Response-shape enumeration for the `fetch` handler -/

/-- Every `fetch` response is the preflight response (on `OPTIONS`), an
error response built with the default `'*'` CORS origin, or the 200 success
response built with the request's validated origin. -/
theorem handleFetch_cases (req : WRequest) (call : JVal → Except String UpstreamResponse)
    (now : Nat) (cache : RateCache) :
    ∀ resp, resp = (handleFetch req call now cache).1 →
      (req.method = "OPTIONS" ∧ resp = handleCORS) ∨
      (∃ d st, st ≠ 200 ∧ resp = jsonResponse d st "*") ∨
      (∃ d o, req.origin = some o ∧ resp = jsonResponse d 200 o) := by
  intro resp hresp
  simp only [handleFetch] at hresp
  split at hresp
  · exact Or.inl ⟨by assumption, hresp⟩
  · split at hresp
    · exact Or.inr (Or.inl ⟨_, 405, by decide, hresp⟩)
    · split at hresp
      · exact Or.inr (Or.inl ⟨_, 403, by decide, hresp⟩)
      · rename_i hgate
        have hga : originAllowed req.origin = true := by
          cases hoa : originAllowed req.origin
          · rw [hoa] at hgate
            simp at hgate
          · rfl
        split at hresp
        · exact Or.inr (Or.inl ⟨_, 429, by decide, hresp⟩)
        · split at hresp
          · exact Or.inr (Or.inl ⟨_, 500, by decide, hresp⟩)
          · split at hresp
            · exact Or.inr (Or.inl ⟨_, 500, by decide, hresp⟩)
            · split at hresp
              · exact Or.inr (Or.inl ⟨_, 400, by decide, hresp⟩)
              · split at hresp
                · exact Or.inr (Or.inl ⟨_, 500, by decide, hresp⟩)
                · rename_i u heq
                  split at hresp
                  · rename_i hok
                    have hnotok : upstreamOk u = false := by
                      cases h' : upstreamOk u
                      · rfl
                      · rw [h'] at hok
                        simp at hok
                    simp only [upstreamOk, decide_eq_false_iff_not] at hnotok
                    refine Or.inr (Or.inl ⟨_, u.status, ?_, hresp⟩)
                    omega
                  · split at hresp
                    · exact Or.inr (Or.inl ⟨_, 500, by decide, hresp⟩)
                    · split at hresp
                      · rename_i ov hov
                        exact Or.inr (Or.inr ⟨_, ov, hov, hresp⟩)
                      · rename_i hnone
                        rw [hnone] at hga
                        simp [originAllowed] at hga

/-! ## Claim theorems -/

/-- Claim C1: fixed-window rate limiting per client identifier.  If a
client's record shows exactly 30 requests in the current window, a request
arriving not past the record's `resetAt` is rejected — `checkRateLimit`
returns `false` and the `fetch` handler answers HTTP 429 for any valid POST
from that client — while a request arriving after `resetAt` has elapsed is
admitted and installs a fresh record with `count = 1` and
`resetAt = now + 60000` ms. -/
theorem rate_window_budget_and_reset (ip : String) (now : Nat) (cache : RateCache)
    (rec : RateRecord) (hnd : (cache.map Prod.fst).Nodup)
    (hrec : getAssoc (rateKey ip) cache = some rec) (hcount : rec.count = 30) :
    (now ≤ rec.resetAt →
      (checkRateLimit ip now cache).1 = false ∧
      ∀ (req : WRequest) (call : JVal → Except String UpstreamResponse),
        req.method = "POST" → originAllowed req.origin = true →
        clientIPOf req = ip →
        (handleFetch req call now cache).1.status = 429) ∧
    (rec.resetAt < now →
      (checkRateLimit ip now cache).1 = true ∧
      getAssoc (rateKey ip) (checkRateLimit ip now cache).2 =
        some { count := 1, resetAt := now + 60000 }) := by
  constructor
  · intro hlive
    have hclean := getAssoc_cleanup_of_live now _ _ _ hrec hlive
    have hover : RATE_LIMIT_REQUESTS < rec.count + 1 := by
      simp [RATE_LIMIT_REQUESTS, hcount]
    have hrl := checkRateLimit_of_live_reject ip now cache rec hclean hlive hover
    refine ⟨by rw [hrl], ?_⟩
    intro req call hm ho hip
    obtain ⟨m, o, cip, bd⟩ := req
    simp only [] at hm ho hip
    subst hm
    have hfalse : (checkRateLimit (clientIPOf ⟨"POST", o, cip, bd⟩) now cache).1 = false := by
      rw [hip, hrl]
    simp [handleFetch, ho, hfalse, jsonResponse]
  · intro hexp
    have hnone : getAssoc (rateKey ip) (cleanupRateLimit now cache) = none :=
      getAssoc_cleanup_of_expired now _ rec _ hnd hrec hexp
    rw [checkRateLimit_of_none _ _ _ hnone]
    refine ⟨rfl, ?_⟩
    rw [getAssoc_setAssoc_self]
    norm_num [RATE_LIMIT_WINDOW]

theorem rate_window_budget_and_reset_witness :
    (checkRateLimit "1.2.3.4" 100 [(rateKey "1.2.3.4", ⟨30, 150⟩)]).1 = false ∧
    (handleFetch ⟨"POST", some "https://envolveai.bot", some "1.2.3.4", .ok (jobj [])⟩
      (fun _ => .error "net") 100 [(rateKey "1.2.3.4", ⟨30, 150⟩)]).1.status = 429 ∧
    (checkRateLimit "1.2.3.4" 200 [(rateKey "1.2.3.4", ⟨30, 150⟩)]).1 = true ∧
    getAssoc (rateKey "1.2.3.4")
      (checkRateLimit "1.2.3.4" 200 [(rateKey "1.2.3.4", ⟨30, 150⟩)]).2 =
      some ⟨1, 60200⟩ := by
  have h100 := rate_window_budget_and_reset "1.2.3.4" 100
    [(rateKey "1.2.3.4", ⟨30, 150⟩)] ⟨30, 150⟩ (by decide) rfl rfl
  have h200 := rate_window_budget_and_reset "1.2.3.4" 200
    [(rateKey "1.2.3.4", ⟨30, 150⟩)] ⟨30, 150⟩ (by decide) rfl rfl
  refine ⟨(h100.1 (by decide)).1,
    (h100.1 (by decide)).2 _ (fun _ => .error "net") rfl (by decide) rfl,
    (h200.2 (by decide)).1, (h200.2 (by decide)).2⟩

/-- Claim C7: a rejected request does not reset the window.  When a live
record's incremented count exceeds the budget, `checkRateLimit` returns
`false` and the stored record keeps the incremented count with `resetAt`
unchanged. -/
theorem rejection_retains_window (ip : String) (now : Nat) (cache : RateCache)
    (rec : RateRecord) (hrec : getAssoc (rateKey ip) cache = some rec)
    (hlive : now ≤ rec.resetAt) (hover : RATE_LIMIT_REQUESTS < rec.count + 1) :
    (checkRateLimit ip now cache).1 = false ∧
    getAssoc (rateKey ip) (checkRateLimit ip now cache).2 =
      some { count := rec.count + 1, resetAt := rec.resetAt } := by
  have hclean := getAssoc_cleanup_of_live now _ _ _ hrec hlive
  rw [checkRateLimit_of_live_reject ip now cache rec hclean hlive hover]
  exact ⟨rfl, getAssoc_setAssoc_self _ _ _⟩

theorem rejection_retains_window_witness :
    (checkRateLimit "a" 100 [(rateKey "a", ⟨30, 150⟩)]).1 = false ∧
    getAssoc (rateKey "a") (checkRateLimit "a" 100 [(rateKey "a", ⟨30, 150⟩)]).2 =
      some ⟨31, 150⟩ :=
  rejection_retains_window "a" 100 _ ⟨30, 150⟩ rfl (by decide) (by decide)

/-- Claim C8: lazy-sweep invariant.  The sweep keeps exactly the records
whose `resetAt` has not passed; after any rate-limit check at time `now`
every remaining record satisfies `resetAt ≥ now`; and the check for one
client leaves every other client's non-expired record unchanged. -/
theorem lazy_sweep_invariant (ip : String) (now : Nat) (cache : RateCache) :
    (∀ e ∈ cleanupRateLimit now cache, now ≤ e.2.resetAt ∧ e ∈ cache) ∧
    (∀ e ∈ cache, now ≤ e.2.resetAt → e ∈ cleanupRateLimit now cache) ∧
    (∀ k r, getAssoc k (checkRateLimit ip now cache).2 = some r →
      now ≤ r.resetAt) ∧
    (∀ k r, k ≠ rateKey ip → getAssoc k cache = some r → now ≤ r.resetAt →
      getAssoc k (checkRateLimit ip now cache).2 = some r) := by
  refine ⟨?_, ?_, ?_, ?_⟩
  · intro e he
    rw [cleanupRateLimit, List.mem_filter] at he
    exact ⟨by simpa using he.2, he.1⟩
  · intro e he h
    rw [cleanupRateLimit, List.mem_filter]
    exact ⟨he, by simpa using h⟩
  · intro k r h
    exact checkRateLimit_post_live ip now cache k r h
  · intro k r hk h hlive
    exact checkRateLimit_frame ip now cache k r hk h hlive

theorem lazy_sweep_invariant_witness :
    ((rateKey "b", (⟨3, 10⟩ : RateRecord)) ∈
      cleanupRateLimit 5 [(rateKey "b", ⟨3, 10⟩), (rateKey "c", ⟨7, 2⟩)]) ∧
    getAssoc (rateKey "b")
      (checkRateLimit "a" 5 [(rateKey "b", ⟨3, 10⟩), (rateKey "c", ⟨7, 2⟩)]).2 =
      some ⟨3, 10⟩ :=
  ⟨(lazy_sweep_invariant "a" 5 _).2.1 _ (by decide) (by decide),
   (lazy_sweep_invariant "a" 5 _).2.2.2 (rateKey "b") ⟨3, 10⟩ (by decide) rfl
     (by decide)⟩

/-- Claim C9: a POST request with no `Origin` header is always rejected with
HTTP 403 — `null` is in no allow-list and the optional-chained loopback test
is falsy for it — regardless of body, client IP, cache state or upstream. -/
theorem missing_origin_rejected (cip : Option String) (bd : Except String JVal)
    (call : JVal → Except String UpstreamResponse) (now : Nat) (cache : RateCache) :
    originAllowed none = false ∧
    (handleFetch ⟨"POST", none, cip, bd⟩ call now cache).1 =
      jsonResponse (errBody "Origem não autorizada") 403 "*" :=
  ⟨rfl, rfl⟩

/-- Claim C10: a request whose `message` field is the empty string is
rejected with HTTP 400 `"Mensagem inválida"`, although the field is present
and of string type, because the gate tests JavaScript falsiness of the
value. -/
theorem empty_message_rejected (req : WRequest)
    (call : JVal → Except String UpstreamResponse) (now : Nat)
    (cache : RateCache) (b : JVal)
    (hm : req.method = "POST") (ho : originAllowed req.origin = true)
    (hrl : (checkRateLimit (clientIPOf req) now cache).1 = true)
    (hb : req.body = .ok b)
    (hmsg : getField b "message" = some (jstr "")) :
    isStringVal (getField b "message") = true ∧
    (handleFetch req call now cache).1 =
      jsonResponse (errBody "Mensagem inválida") 400 "*" := by
  obtain ⟨m, o, cip, bd⟩ := req
  simp only [] at hm ho hrl hb
  subst hm
  subst hb
  have hnn : isNullJ b = false := by
    cases b <;> first | rfl | (simp [getField] at hmsg)
  have hv : validMessage b = false := by
    simp [validMessage, jsTruthy, hmsg]
  refine ⟨by simp [isStringVal, hmsg], ?_⟩
  simp [handleFetch, ho, hrl, hv, hnn]

theorem empty_message_rejected_witness :
    (handleFetch ⟨"POST", some "https://envolveai.bot", some "1.2.3.4",
        .ok (jobj [("message", jstr "")])⟩ (fun _ => .error "net") 0 []).1 =
      jsonResponse (errBody "Mensagem inválida") 400 "*" :=
  (empty_message_rejected _ (fun _ => .error "net") 0 [] (jobj [("message", jstr "")])
    rfl (by decide) rfl rfl rfl).2

/-- A parsed body that is the JSON literal `null` is answered 500, not 400:
the validation access `body.message` (source line 52) throws a TypeError
inside the `try` and the catch-all (source lines 100–106) reports an
internal error.  The outcome is still independent of the upstream. -/
theorem null_body_answered_500 (req : WRequest) (now : Nat) (cache : RateCache)
    (hm : req.method = "POST") (ho : originAllowed req.origin = true)
    (hrl : (checkRateLimit (clientIPOf req) now cache).1 = true)
    (hb : req.body = .ok jnull) :
    ∀ call, (handleFetch req call now cache).1 =
      jsonResponse
        (jobj [("error", jstr "Erro interno do servidor"),
               ("message", jstr "Cannot read properties of null")]) 500 "*" := by
  intro call
  obtain ⟨m, o, cip, bd⟩ := req
  simp only [] at hm ho hrl hb
  subst hm
  subst hb
  simp [handleFetch, ho, hrl, isNullJ]

/-- Claim C5: input validation precedes the upstream call.  An admitted POST
whose JSON body lacks a `message` field or whose `message` field is not a
string (number, object, null) is answered with HTTP 400
`"Mensagem inválida"`, and the outcome is independent of the upstream — no
upstream request is issued.  The body itself must not be the JSON literal
`null`: on that body the validation test cannot even run — `body.message`
throws and the worker answers 500 instead (`null_body_answered_500`). -/
theorem invalid_message_rejected_before_upstream (req : WRequest) (now : Nat)
    (cache : RateCache) (b : JVal)
    (hm : req.method = "POST") (ho : originAllowed req.origin = true)
    (hrl : (checkRateLimit (clientIPOf req) now cache).1 = true)
    (hb : req.body = .ok b) (hnn : isNullJ b = false)
    (hmsg : getField b "message" = none ∨ isStringVal (getField b "message") = false) :
    (∀ call, (handleFetch req call now cache).1 =
      jsonResponse (errBody "Mensagem inválida") 400 "*") ∧
    (∀ call call', handleFetch req call now cache = handleFetch req call' now cache) := by
  obtain ⟨m, o, cip, bd⟩ := req
  simp only [] at hm ho hrl hb
  subst hm
  subst hb
  have hv : validMessage b = false := by
    rcases hmsg with h | h
    · simp [validMessage, h, jsTruthy]
    · simp [validMessage, h]
  constructor
  · intro call
    simp [handleFetch, ho, hrl, hv, hnn]
  · intro call call'
    simp [handleFetch, ho, hrl, hv, hnn]

theorem invalid_message_rejected_before_upstream_witness :
    (handleFetch ⟨"POST", some "https://envolveai.bot", some "1.2.3.4",
        .ok (jobj [("message", jnum 12345)])⟩ (fun _ => .error "net") 0 []).1 =
      jsonResponse (errBody "Mensagem inválida") 400 "*" :=
  (invalid_message_rejected_before_upstream _ 0 [] (jobj [("message", jnum 12345)])
    rfl (by decide) rfl rfl rfl (Or.inr rfl)).1 (fun _ => .error "net")

/-- Claim C6: silent message truncation.  With no caller-supplied `contents`
field, the payload forwarded upstream carries `sanitizeMessage message`;
a message longer than 1000 characters is cut to exactly its first 1000
characters, a message of at most 1000 characters is forwarded unmodified,
and the truncation is idempotent. -/
theorem message_truncation (b : JVal) (m : String)
    (hmsg : getField b "message" = some (jstr m))
    (hc : getField b "contents" = none) :
    buildGeminiRequest b =
      jobj [("contents", defaultContents (sanitizeMessage m)),
            ("generationConfig", generationConfig)] ∧
    (1000 < m.length →
      (sanitizeMessage m).length = 1000 ∧ ∃ rest, sanitizeMessage m ++ rest = m) ∧
    (m.length ≤ 1000 → sanitizeMessage m = m) ∧
    sanitizeMessage (sanitizeMessage m) = sanitizeMessage m := by
  refine ⟨?_, ?_, ?_, ?_⟩
  · simp [buildGeminiRequest, messageOf, hmsg, hc]
  · intro hlong
    simp only [String.length] at hlong
    constructor
    · simp only [sanitizeMessage, String.length, List.length_take]
      omega
    · refine ⟨String.mk (m.data.drop 1000), ?_⟩
      show String.mk (m.data.take 1000 ++ m.data.drop 1000) = m
      rw [List.take_append_drop]
  · intro hshort
    simp only [String.length] at hshort
    unfold sanitizeMessage
    rw [List.take_of_length_le hshort]
  · simp [sanitizeMessage, List.take_take]

theorem message_truncation_witness :
    buildGeminiRequest (jobj [("message", jstr "Oi")]) =
      jobj [("contents", defaultContents (sanitizeMessage "Oi")),
            ("generationConfig", generationConfig)] ∧
    sanitizeMessage "Oi" = "Oi" ∧
    (sanitizeMessage (String.mk (List.replicate 1001 'a'))).length = 1000 := by
  have h1 := message_truncation (jobj [("message", jstr "Oi")]) "Oi" rfl rfl
  have h2 := message_truncation
    (jobj [("message", jstr (String.mk (List.replicate 1001 'a')))])
    (String.mk (List.replicate 1001 'a')) rfl rfl
  refine ⟨h1.1, h1.2.2.1 (by decide), (h2.2.1 ?_).1⟩
  show (1000 : Nat) < (List.replicate 1001 'a').length
  rw [List.length_replicate]
  norm_num

/-- Claim C2, counterexample: a non-preflight POST from the allow-listed
origin `https://envolveai.bot` whose body fails validation receives a 400
error response whose `Access-Control-Allow-Origin` header is the wildcard
`'*'`, not the request's validated origin — refuting the claim that every
non-preflight response echoes the validated origin and never `'*'`. -/
theorem cors_wildcard_on_error_cex :
    ("POST" : String) ≠ "OPTIONS" ∧
    (handleFetch ⟨"POST", some "https://envolveai.bot", some "9.9.9.9",
        .ok (jobj [("message", jnum 12345)])⟩ (fun _ => .error "net") 0 []).1.status
      = 400 ∧
    getHeader (handleFetch ⟨"POST", some "https://envolveai.bot", some "9.9.9.9",
        .ok (jobj [("message", jnum 12345)])⟩ (fun _ => .error "net") 0 []).1
      "Access-Control-Allow-Origin" = some "*" ∧
    (some "*" : Option String) ≠ some "https://envolveai.bot" :=
  ⟨by decide, rfl, rfl, by decide⟩

/-- Claim C2, amended: for non-preflight requests only the 200 success
response carries `Access-Control-Allow-Origin` equal to the request's
validated origin; every non-200 (error) response carries the wildcard
`'*'`. -/
theorem cors_origin_echo_only_on_success (req : WRequest)
    (call : JVal → Except String UpstreamResponse) (now : Nat)
    (cache : RateCache) (hm : req.method ≠ "OPTIONS") :
    ((handleFetch req call now cache).1.status = 200 →
      getHeader (handleFetch req call now cache).1 "Access-Control-Allow-Origin" =
        req.origin) ∧
    ((handleFetch req call now cache).1.status ≠ 200 →
      getHeader (handleFetch req call now cache).1 "Access-Control-Allow-Origin" =
        some "*") := by
  obtain h | ⟨d, st, hst, h⟩ | ⟨d, o, ho, h⟩ :=
    handleFetch_cases req call now cache _ rfl
  · exact absurd h.1 hm
  · rw [h]
    exact ⟨fun h200 => absurd h200 hst, fun _ => rfl⟩
  · rw [h, ho]
    exact ⟨fun _ => rfl, fun hne => absurd rfl hne⟩

theorem cors_origin_echo_only_on_success_witness :
    getHeader (handleFetch ⟨"POST", some "https://envolveai.bot", some "1.2.3.4",
        .ok (jobj [("message", jstr "Oi")])⟩
      (fun _ => .ok ⟨200, "", .ok (jstr "ok")⟩) 0 []).1
      "Access-Control-Allow-Origin" = some "https://envolveai.bot" :=
  (cors_origin_echo_only_on_success ⟨"POST", some "https://envolveai.bot",
      some "1.2.3.4", .ok (jobj [("message", jstr "Oi")])⟩
    (fun _ => .ok ⟨200, "", .ok (jstr "ok")⟩) 0 [] (by decide)).1 rfl

/-- Claim C3, counterexample: a GET request with the disallowed origin
`https://evil.example` is answered 405, not 403 — the method check precedes
the origin check — refuting the claim that every non-OPTIONS request with a
disallowed origin receives 403 regardless of method. -/
theorem origin_gate_method_first_cex :
    originAllowed (some "https://evil.example") = false ∧
    ("GET" : String) ≠ "OPTIONS" ∧
    (handleFetch ⟨"GET", some "https://evil.example", some "1.1.1.1", .error "x"⟩
      (fun _ => .error "net") 0 []).1.status = 405 ∧
    (405 : Nat) ≠ 403 :=
  ⟨by decide, by decide, rfl, by decide⟩

/-- Claim C3, amended: for a request whose origin is neither allow-listed
nor a loopback match, an OPTIONS request always receives the preflight
response, a POST request is rejected 403, and any other method is rejected
405 by the method check that runs before the origin check. -/
theorem origin_gate_amended (req : WRequest)
    (call : JVal → Except String UpstreamResponse) (now : Nat)
    (cache : RateCache) (h : originAllowed req.origin = false) :
    (req.method = "OPTIONS" → (handleFetch req call now cache).1 = handleCORS) ∧
    (req.method = "POST" → (handleFetch req call now cache).1 =
      jsonResponse (errBody "Origem não autorizada") 403 "*") ∧
    (req.method ≠ "OPTIONS" → req.method ≠ "POST" →
      (handleFetch req call now cache).1 =
        jsonResponse (errBody "Método não permitido") 405 "*") := by
  obtain ⟨m, o, cip, bd⟩ := req
  simp only [] at h
  refine ⟨?_, ?_, ?_⟩
  · intro hm
    subst hm
    simp [handleFetch]
  · intro hm
    subst hm
    simp [handleFetch, h]
  · intro h1 h2
    simp [handleFetch, h1, h2]

theorem origin_gate_amended_witness :
    (handleFetch ⟨"OPTIONS", some "https://evil.example", none, .error "x"⟩
      (fun _ => .error "net") 0 []).1 = handleCORS ∧
    (handleFetch ⟨"POST", some "https://evil.example", none, .error "x"⟩
      (fun _ => .error "net") 0 []).1 =
      jsonResponse (errBody "Origem não autorizada") 403 "*" ∧
    (handleFetch ⟨"GET", some "https://evil.example", none, .error "x"⟩
      (fun _ => .error "net") 0 []).1 =
      jsonResponse (errBody "Método não permitido") 405 "*" :=
  ⟨(origin_gate_amended _ (fun _ => .error "net") 0 [] (by decide)).1 rfl,
   (origin_gate_amended _ (fun _ => .error "net") 0 [] (by decide)).2.1 rfl,
   (origin_gate_amended _ (fun _ => .error "net") 0 [] (by decide)).2.2
     (by decide) (by decide)⟩

/-- Claim C4: upstream error sanitization.  When the upstream responds with
a non-success status `s`, the caller receives status `s`; the body's
`details` is exactly `"Rate limit da API"` when `s = 429` and the generic
`"Erro interno"` otherwise; the response is the same for every upstream
error body text `t`, so the raw upstream error text never reaches the
caller. -/
theorem upstream_error_sanitized (req : WRequest) (now : Nat)
    (cache : RateCache) (b : JVal) (s : Nat) (t : String)
    (j : Except String JVal)
    (hm : req.method = "POST") (ho : originAllowed req.origin = true)
    (hrl : (checkRateLimit (clientIPOf req) now cache).1 = true)
    (hb : req.body = .ok b) (hv : validMessage b = true)
    (hns : ¬(200 ≤ s ∧ s ≤ 299)) :
    (handleFetch req (fun _ => .ok ⟨s, t, j⟩) now cache).1 =
      jsonResponse
        (jobj [("error", jstr "Erro ao processar com IA"),
               ("details", jstr (if s = 429 then "Rate limit da API"
                 else "Erro interno"))])
        s "*" ∧
    (∀ t' : String, handleFetch req (fun _ => .ok ⟨s, t', j⟩) now cache =
      handleFetch req (fun _ => .ok ⟨s, t, j⟩) now cache) := by
  obtain ⟨m, o, cip, bd⟩ := req
  simp only [] at hm ho hrl hb
  subst hm
  subst hb
  have hnn : isNullJ b = false := by
    cases b <;> first | rfl | (simp [validMessage, getField, jsTruthy] at hv)
  constructor
  · simp [handleFetch, ho, hrl, hv, hnn, upstreamOk, hns]
  · intro t'
    simp [handleFetch, ho, hrl, hv, hnn, upstreamOk, hns]

theorem upstream_error_sanitized_witness :
    (handleFetch ⟨"POST", some "https://envolveai.bot", some "1.2.3.4",
        .ok (jobj [("message", jstr "Oi")])⟩
      (fun _ => .ok ⟨429, "raw upstream secret", .error "x"⟩) 0 []).1 =
      jsonResponse
        (jobj [("error", jstr "Erro ao processar com IA"),
               ("details", jstr "Rate limit da API")]) 429 "*" := by
  have h := (upstream_error_sanitized ⟨"POST", some "https://envolveai.bot",
      some "1.2.3.4", .ok (jobj [("message", jstr "Oi")])⟩ 0 []
    (jobj [("message", jstr "Oi")]) 429 "raw upstream secret" (.error "x")
    rfl (by decide) rfl rfl (by decide) (by decide)).1
  simpa using h

end EnvolveAI
